import Mathlib

/-!
Shallow embedding of the download orchestration layer of the `descarga_datos`
package: `core/downloader.py` together with the behaviour of
`utils/storage.py`.  The support modules that `core/downloader.py` imports
but that are not shipped in the repository (`utils/retry_manager.py`,
`utils/cache_manager.py`, `utils/data_validator.py`, `utils/monitoring.py`)
are modelled from the specification where their behaviour matters and are
otherwise kept abstract (as function parameters of the environment).
-/

namespace TraderBot

/-- Decidable equality for `Except`, used to evaluate concrete traces. -/
instance {ε α : Type} [DecidableEq ε] [DecidableEq α] : DecidableEq (Except ε α) := fun a b =>
  match a, b with
  | .ok a, .ok b =>
    decidable_of_iff (a = b) (by constructor <;> (intro h; first | rw [h] | (cases h; rfl)))
  | .error a, .error b =>
    decidable_of_iff (a = b) (by constructor <;> (intro h; first | rw [h] | (cases h; rfl)))
  | .ok _, .error _ => .isFalse (by intro h; cases h)
  | .error _, .ok _ => .isFalse (by intro h; cases h)

/-- Raw OHLCV data as handled by the downloader: each row is
`[timestamp, open, high, low, close, volume]`.  The downloader logic never
inspects the numeric values, so integer entries suffice for the embedding. -/
abbrev Df := List (List Int)

/-- Diagnostic statistics attached to a validation result
(for example a row count). -/
abbrev Stats := List (String × Int)

/-- Result of `DataValidator.validate_ohlcv_data` as consumed by
`async_download_ohlcv` (fields `passed`, `errors`, `stats`). -/
structure ValidationResult where
  passed : Bool
  errors : List String
  stats : Stats
deriving Repr, DecidableEq

/-- An exception raised by a gateway fetch, split into the two
classes the specification distinguishes: transient (retry-worthy) and
permanent (not retry-worthy, e.g. an unknown exchange name). -/
inductive FetchErr where
  | transient (msg : String)
  | permanent (msg : String)
deriving Repr, DecidableEq

/-- Modelled from the spec: the failure modes of the Retry Coordinator
(`utils/retry_manager.py` is not in the repository source).  A permanent
fetch error aborts immediately; exhausting all attempts fails with
`RetriesExhaustedError` wrapping the last underlying error. -/
inductive RetryErr where
  | permanent (msg : String)
  | retriesExhausted (last : FetchErr)
deriving Repr, DecidableEq

/-- Modelled from the spec: the backoff delay of the Retry Coordinator,
`min(base_delay * 2 ^ (attempt - 1), max_delay)`, waited after the failure
of attempt number `attempt` (`utils/retry_manager.py` is not in the
repository source). -/
def backoff (base maxD attempt : Nat) : Nat :=
  min (base * 2 ^ (attempt - 1)) maxD

/-- Trace of one run of a retried operation: its final result, the number of
attempts actually made, and the list of delays waited between attempts. -/
structure RetryTrace (α : Type) where
  result : Except RetryErr α
  attempts : Nat
  delays : List Nat
deriving Repr, DecidableEq

/-- Modelled from the spec: the attempt loop of `RetryManager.execute`
(`utils/retry_manager.py` is not in the repository source).  `op n` is the
outcome of attempt number `n` (1-based); the second `Nat` argument is the
number of attempts still allowed.  A success returns at once; a permanent
error aborts at once; a transient error waits `backoff base maxD attempt`
and retries while attempts remain, and exhaustion fails with
`RetryErr.retriesExhausted` wrapping the last underlying error. -/
def retryGo {α : Type} (op : Nat → Except FetchErr α) (base maxD : Nat) :
    Nat → Nat → RetryTrace α
  | _, 0 => { result := .error (.retriesExhausted (.transient "")), attempts := 0, delays := [] }
  | attempt, r + 1 =>
    match op attempt with
    | .ok a => { result := .ok a, attempts := 1, delays := [] }
    | .error (.permanent m) =>
      { result := .error (.permanent m), attempts := 1, delays := [] }
    | .error (.transient m) =>
      match r with
      | 0 => { result := .error (.retriesExhausted (.transient m)), attempts := 1, delays := [] }
      | r' + 1 =>
        let rest := retryGo op base maxD (attempt + 1) (r' + 1)
        { result := rest.result, attempts := rest.attempts + 1,
          delays := backoff base maxD attempt :: rest.delays }

/-- Modelled from the spec: `RetryManager.execute(operation)`, attempting
`operation` up to `maxRetries` times starting at attempt number 1. -/
def retryExec {α : Type} (op : Nat → Except FetchErr α) (maxRetries base maxD : Nat) :
    RetryTrace α :=
  retryGo op base maxD 1 maxRetries

/-- The slice of `Config` (config/config.py) the downloader core reads. -/
structure Config where
  active_exchange : String := "bybit"
  max_retries : Nat := 3
  retry_delay : Nat := 5
  timeframe : String := "1d"
deriving Repr, DecidableEq

/-- The constructor arguments of `RetryManager` (max_retries, base_delay,
max_delay). -/
structure RetryCfg where
  max_retries : Nat
  base_delay : Nat
  max_delay : Nat
deriving Repr, DecidableEq

/-- `DataDownloader.__init__` (downloader.py lines 27-31): the retry manager
is constructed with `max_retries=config.max_retries`,
`base_delay=config.retry_delay`, `max_delay=60.0`. -/
def initRetryManager (cfg : Config) : RetryCfg :=
  { max_retries := cfg.max_retries, base_delay := cfg.retry_delay, max_delay := 60 }

/-- Environment of one call to `async_download_trades`: whether
`_get_exchange` finds the exchange (it raises `ValueError` otherwise,
downloader.py lines 76-81), the outcome of `exchange.fetch_trades` on each
attempt (1-based), and the configuration values read by the loop. -/
structure TradesEnv where
  exchangeKnown : Bool
  fetch : Nat → Except FetchErr Df
  maxRetries : Nat
  retryDelay : Nat

/-- Observable trace of one call to `async_download_trades`: the returned
value (the error side of `result` would be an exception escaping the call —
the loop catches every exception, so it never occurs), the number of loop
iterations run, the number of times `fetch_trades` was invoked, the sleeps
performed, and whether `_save_data` was reached. -/
structure TradesTrace where
  result : Except RetryErr (Option Df)
  attempts : Nat
  fetchCalls : Nat
  delays : List Nat
  saved : Bool
deriving Repr, DecidableEq

/-- The retry loop of `async_download_trades` (downloader.py lines 224-239):
`for attempt in range(max_retries)` with a bare `except Exception` that logs
and sleeps `config.retry_delay` before the next iteration.  `_get_exchange`
is called inside the `try`, so an unknown exchange is also caught and
retried.  A non-empty fetch saves and returns the data; an empty fetch
returns an empty frame; after the loop the function returns `None`. -/
def tradesGo (env : TradesEnv) : Nat → Nat → TradesTrace
  | _, 0 => { result := .ok none, attempts := 0, fetchCalls := 0, delays := [], saved := false }
  | attempt, r + 1 =>
    if env.exchangeKnown then
      match env.fetch attempt with
      | .ok trades =>
        if trades.isEmpty then
          { result := .ok (some []), attempts := 1, fetchCalls := 1, delays := [], saved := false }
        else
          { result := .ok (some trades), attempts := 1, fetchCalls := 1, delays := [],
            saved := true }
      | .error _ =>
        let rest := tradesGo env (attempt + 1) r
        { result := rest.result, attempts := rest.attempts + 1,
          fetchCalls := rest.fetchCalls + 1, delays := env.retryDelay :: rest.delays,
          saved := rest.saved }
    else
      let rest := tradesGo env (attempt + 1) r
      { result := rest.result, attempts := rest.attempts + 1, fetchCalls := rest.fetchCalls,
        delays := env.retryDelay :: rest.delays, saved := rest.saved }

/-- `async_download_trades` (downloader.py lines 222-239). -/
def async_download_trades (env : TradesEnv) : TradesTrace :=
  tradesGo env 1 env.maxRetries

/-- The default `since` computed when none is supplied (downloader.py lines
162-170): the last `limit` hours for the `1h` timeframe, the last `limit`
days otherwise, in milliseconds before `now`. -/
def defaultSince (now_ms : Int) (timeframe : String) (limit : Nat) : Int :=
  if timeframe = "1h" then now_ms - (limit : Int) * 3600000
  else now_ms - (limit : Int) * 86400000

/-- The `since` value actually passed to `fetch_ohlcv`. -/
def effSince (since : Option Int) (now_ms : Int) (timeframe : String) (limit : Nat) : Int :=
  match since with
  | some s => s
  | none => defaultSince now_ms timeframe limit

/-- `_save_data` (downloader.py lines 241-281): attempts the CSV and SQLite
writes and catches every exception in a final `except` (lines 280-281), so
it always returns normally; the two Booleans record whether the underlying
writes (`save_to_csv` / `save_to_sqlite` of utils/storage.py, which
themselves catch their own errors and return a Boolean) succeeded. -/
def save_data (csvOk sqlOk : Bool) : Bool × Bool := (csvOk, sqlOk)

/-- Environment of one execution of the body of `async_download_ohlcv`.
`cacheGet` models `CacheManager.get_from_cache` (modelled from the spec:
`utils/cache_manager.py` is not in the repository source; it returns the
stored dataset when a fresh entry exists under the key and `none` on a miss
or a stale entry).  `validate` models `DataValidator.validate_ohlcv_data`
(`utils/data_validator.py` is not in the repository source; the claims
quantify over its outcome).  `fetch` gives the outcome of
`exchange.fetch_ohlcv` as a function of the effective `since` and `limit`. -/
structure OhlcvEnv where
  useCache : Bool
  cacheGet : String → String → String → Option Df
  validate : Df → ValidationResult
  exchangeKnown : Bool
  fetch : Int → Nat → Except FetchErr Df
  now_ms : Int

/-- Observable outcome of one execution of the body of
`async_download_ohlcv`: `outcome` is either the returned pair
(dataset-or-None, stats) or the exception re-raised at line 220; the other
fields record the side effects (fetch count, `_save_data` reached, actual
CSV/SQLite write success, the cache key written, and the argument of
`monitor.complete_operation` if it was called at all). -/
structure OhlcvResult where
  outcome : Except FetchErr (Option Df × Stats)
  fetchCalls : Nat
  saved : Bool
  csvWritten : Bool
  sqlWritten : Bool
  cacheWrite : Option (String × String × String)
  completed : Option Bool
deriving Repr, DecidableEq

/-- The body of `async_download_ohlcv` (downloader.py lines 138-220), i.e.
one attempt as seen by the `with_retry` decorator.  Faithful to the source:
a cache hit re-validates the cached data and returns it with the validation
stats without checking `passed` and without completing the monitored
operation (lines 151-157); an unknown exchange raises out of the body after
completing the operation with `success=False` (lines 159, 214-220); an
empty fetch returns `(None, empty stats)` without completing the operation
(lines 174-179); a validated fetch persists, populates the cache when
`use_cache` is set, completes with `success=True` and returns the data
(lines 200-209); a failed validation persists nothing, completes with
`success=False` and returns `(None, stats)` (lines 210-212). -/
def async_download_ohlcv_body (env : OhlcvEnv) (symbol exchangeName timeframe : String)
    (since : Option Int) (limit : Nat) (csvOk sqlOk : Bool) : OhlcvResult :=
  match (if env.useCache then env.cacheGet exchangeName symbol timeframe else none) with
  | some cached =>
    let v := env.validate cached
    { outcome := .ok (some cached, v.stats), fetchCalls := 0, saved := false,
      csvWritten := false, sqlWritten := false, cacheWrite := none, completed := none }
  | none =>
    if env.exchangeKnown then
      match env.fetch (effSince since env.now_ms timeframe limit) limit with
      | .error e =>
        { outcome := .error e, fetchCalls := 1, saved := false, csvWritten := false,
          sqlWritten := false, cacheWrite := none, completed := some false }
      | .ok rows =>
        if rows.isEmpty then
          { outcome := .ok (none, []), fetchCalls := 1, saved := false, csvWritten := false,
            sqlWritten := false, cacheWrite := none, completed := none }
        else
          let v := env.validate rows
          if v.passed then
            let w := save_data csvOk sqlOk
            { outcome := .ok (some rows, v.stats), fetchCalls := 1, saved := true,
              csvWritten := w.1, sqlWritten := w.2,
              cacheWrite := if env.useCache then some (exchangeName, symbol, timeframe)
                            else none,
              completed := some true }
          else
            { outcome := .ok (none, v.stats), fetchCalls := 1, saved := false,
              csvWritten := false, sqlWritten := false, cacheWrite := none,
              completed := some false }
    else
      { outcome := .error (.permanent "Exchange not initialized."), fetchCalls := 0,
        saved := false, csvWritten := false, sqlWritten := false, cacheWrite := none,
        completed := some false }

/-- Trace of a full (decorated) call to `async_download_ohlcv`: final
result, number of body attempts, total `fetch_ohlcv` invocations, and the
backoff delays waited. -/
structure OhlcvWrapTrace where
  result : Except RetryErr (Option Df × Stats)
  attempts : Nat
  fetchCalls : Nat
  delays : List Nat
deriving Repr, DecidableEq

/-- `async_download_ohlcv` as callers see it: the body wrapped by the
`with_retry()` decorator (downloader.py line 137), which is modelled from
the spec through `retryGo` (`utils/retry_manager.py` is not in the
repository source).  Each attempt re-runs the body; in this embedding the
body's outcome does not depend on the attempt number, so the call trace is
the retry coordinator's trace with the body's fetch count accumulated once
per attempt made. -/
def async_download_ohlcv (env : OhlcvEnv) (symbol exchangeName timeframe : String)
    (since : Option Int) (limit : Nat) (csvOk sqlOk : Bool) (rcfg : RetryCfg) :
    OhlcvWrapTrace :=
  let b := async_download_ohlcv_body env symbol exchangeName timeframe since limit csvOk sqlOk
  let t := retryGo (fun _ => b.outcome) rcfg.base_delay rcfg.max_delay 1 rcfg.max_retries
  { result := t.result, attempts := t.attempts, fetchCalls := t.attempts * b.fetchCalls,
    delays := t.delays }

/-- Insertion into the `results` dict of `download_multiple_symbols` with
Python dict semantics: overwrite in place if the key exists, append
otherwise. -/
def dictInsert : List (String × Df) → String → Df → List (String × Df)
  | [], k, v => [(k, v)]
  | (k', v') :: rest, k, v =>
    if k' = k then (k, v) :: rest else (k', v') :: dictInsert rest k v

/-- Lookup in the `results` dict. -/
def dictLookup : List (String × Df) → String → Option Df
  | [], _ => none
  | (k', v') :: rest, k => if k' = k then some v' else dictLookup rest k

/-- The batches produced by `for i in range(0, len(symbols), batch_size):
batch = symbols[i:i + batch_size]` (downloader.py lines 103-104), for a
positive batch size. -/
def chunks {α : Type} (bs : Nat) : List α → List (List α)
  | [] => []
  | x :: xs => (x :: xs.take (bs - 1)) :: chunks bs (xs.drop (bs - 1))
termination_by l => l.length
decreasing_by
  simp only [List.length_drop, List.length_cons]
  omega

/-- The per-symbol outcome of `await task` inside `download_multiple_symbols`:
either the `(data, stats)` pair returned by `async_download_ohlcv`, or the
exception it raised. -/
abbrev SymbolOutcome := Except RetryErr (Option Df × Stats)

/-- The per-batch result collection loop (downloader.py lines 120-129): for
each symbol, a raised exception is caught and logged, a `None` dataset is
logged and skipped, and a present dataset is stored under the symbol. -/
def processSyms (dl : String → SymbolOutcome) (syms : List String)
    (acc : List (String × Df)) : List (String × Df) :=
  syms.foldl
    (fun r s =>
      match dl s with
      | .ok (some d, _) => dictInsert r s d
      | .ok (none, _) => r
      | .error _ => r)
    acc

/-- One event of the batching trace of `download_multiple_symbols`: a task of
a symbol starting, a task completing, or the `asyncio.sleep` pause between
batches. -/
inductive BatchEvent where
  | start (sym : String)
  | finish (sym : String)
  | pause (secs : Nat)
deriving Repr, DecidableEq

/-- The temporal trace of the batch loop (downloader.py lines 103-133): each
batch creates all its tasks, awaits them all, and sleeps 1 second afterwards
exactly when more symbols remain (`if i + batch_size < len(symbols)`, which
holds exactly when a further batch follows). -/
def traceOf : List (List String) → List BatchEvent
  | [] => []
  | b :: rest =>
    b.map BatchEvent.start ++ b.map BatchEvent.finish ++
      (if rest = [] then [] else [BatchEvent.pause 1]) ++ traceOf rest

/-- The result accumulation of the batch loop over the list of batches. -/
def runBatches (dl : String → SymbolOutcome) :
    List (List String) → List (String × Df) → List (String × Df)
  | [], acc => acc
  | b :: rest, acc => runBatches dl rest (processSyms dl b acc)

/-- `download_multiple_symbols` (downloader.py lines 83-135): partitions the
symbols into batches of `batch_size`, runs each batch, collects per-symbol
results into a dict (failures isolated per symbol), and produces the
batching trace.  `dl` abstracts the awaited outcome of the per-symbol
`async_download_ohlcv` task. -/
def download_multiple_symbols (dl : String → SymbolOutcome) (symbols : List String)
    (bs : Nat) : List (String × Df) × List BatchEvent :=
  (runBatches dl (chunks bs symbols) [], traceOf (chunks bs symbols))

/-- The block of trace events of a non-final batch (its starts, its
completions, and the pause that follows it). -/
def blockP (b : List String) : List BatchEvent :=
  b.map BatchEvent.start ++ b.map BatchEvent.finish ++ [BatchEvent.pause 1]

/-- The sample OHLCV row used throughout the repository's tests
(`[1622505600000, 40000, 41000, 39000, 40500, 100]`). -/
def sampleRows : Df := [[1622505600000, 40000, 41000, 39000, 40500, 100]]

/-- A validator that accepts every dataset, reporting its row count. -/
def passV : Df → ValidationResult :=
  fun d => { passed := true, errors := [], stats := [("total_rows", (d.length : Int))] }

/-- A validator that rejects every dataset, reporting an OHLC violation. -/
def failV : Df → ValidationResult :=
  fun d => { passed := false, errors := ["ohlc consistency"],
             stats := [("total_rows", (d.length : Int))] }

/-- Concrete call environment: fresh cache entry whose re-validation fails. -/
def envCacheBad : OhlcvEnv :=
  { useCache := true, cacheGet := fun _ _ _ => some sampleRows, validate := failV,
    exchangeKnown := true, fetch := fun _ _ => .ok sampleRows, now_ms := 1625097600000 }

/-- Concrete call environment: cache miss, fetch succeeds, validation fails. -/
def envFreshBad : OhlcvEnv :=
  { useCache := true, cacheGet := fun _ _ _ => none, validate := failV,
    exchangeKnown := true, fetch := fun _ _ => .ok sampleRows, now_ms := 1625097600000 }

/-- Concrete call environment: fresh cache entry, passing validator. -/
def envCacheFresh : OhlcvEnv :=
  { useCache := true, cacheGet := fun _ _ _ => some sampleRows, validate := passV,
    exchangeKnown := true, fetch := fun _ _ => .error (.transient "unreachable"),
    now_ms := 1625097600000 }

/-- Concrete call environment: cache miss, fetch succeeds, validation passes. -/
def envFreshOk : OhlcvEnv :=
  { useCache := true, cacheGet := fun _ _ _ => none, validate := passV,
    exchangeKnown := true, fetch := fun _ _ => .ok sampleRows, now_ms := 1625097600000 }

/-- Trades environment whose gateway raises a transient error on every
attempt, with the default configuration (max_retries 3, retry_delay 5). -/
def envTradesTransient : TradesEnv :=
  { exchangeKnown := true, fetch := fun _ => .error (.transient "Network Error"),
    maxRetries := 3, retryDelay := 5 }

/-- Trades environment whose exchange name is not initialized
(`_get_exchange` raises on every iteration), default configuration. -/
def envTradesNoExchange : TradesEnv :=
  { exchangeKnown := false, fetch := fun _ => .ok sampleRows,
    maxRetries := 3, retryDelay := 5 }

/-- A second always-transient trades environment, used for the delay trace. -/
def envTradesDelays : TradesEnv :=
  { exchangeKnown := true, fetch := fun _ => .error (.transient "rate limit"),
    maxRetries := 3, retryDelay := 5 }

/-- An operation that raises a transient error on every attempt. -/
def opTransient : Nat → Except FetchErr Df :=
  fun _ => .error (.transient "Network Error")

/-- An operation that raises a permanent error on its first attempt. -/
def opPermanent : Nat → Except FetchErr Df :=
  fun _ => .error (.permanent "Exchange binance not initialized.")

/-- Per-symbol download outcomes where symbol A fails permanently and every
other symbol succeeds with the sample data. -/
def dlMixed : String → SymbolOutcome :=
  fun s =>
    if s = "A" then .error (.permanent "exchange not found")
    else .ok (some sampleRows, [("total_rows", 1)])

/-- When every fetch attempt raises, the trades loop runs all its
iterations, invokes the gateway on each, sleeps `retry_delay` after each
failure, and finally returns `None` without raising. -/
theorem tradesGo_allFail (env : TradesEnv) (hx : env.exchangeKnown = true)
    (hf : ∀ n, ∃ e, env.fetch n = .error e) :
    ∀ (r attempt : Nat), tradesGo env attempt r =
      { result := .ok none, attempts := r, fetchCalls := r,
        delays := List.replicate r env.retryDelay, saved := false } := by
  intro r
  induction r with
  | zero => intro attempt; simp [tradesGo]
  | succ r ih =>
    intro attempt
    obtain ⟨e, he⟩ := hf attempt
    simp [tradesGo, hx, he, ih (attempt + 1), List.replicate_succ]

/-- When the exchange is unknown, `_get_exchange` raises inside the `try` on
every iteration, so the loop runs all its iterations without ever invoking
the gateway, sleeping after each, and returns `None`. -/
theorem tradesGo_noExchange (env : TradesEnv) (hx : env.exchangeKnown = false) :
    ∀ (r attempt : Nat), tradesGo env attempt r =
      { result := .ok none, attempts := r, fetchCalls := 0,
        delays := List.replicate r env.retryDelay, saved := false } := by
  intro r
  induction r with
  | zero => intro attempt; simp [tradesGo]
  | succ r ih =>
    intro attempt
    simp [tradesGo, hx, ih (attempt + 1), List.replicate_succ]

/-- An always-transient operation exhausts the whole retry budget: starting
at attempt number `attempt` with `r + 1` attempts allowed, the coordinator
makes `r + 1` attempts, waits the exponential backoff between consecutive
attempts, and fails wrapping the error of the last attempt. -/
theorem retryGo_transient {α : Type} (op : Nat → Except FetchErr α) (m : Nat → String)
    (base maxD : Nat) (hop : ∀ n, op n = .error (.transient (m n))) :
    ∀ (r attempt : Nat), retryGo op base maxD attempt (r + 1) =
      { result := .error (.retriesExhausted (.transient (m (attempt + r)))),
        attempts := r + 1,
        delays := (List.range r).map (fun k => backoff base maxD (attempt + k)) } := by
  intro r
  induction r with
  | zero => intro attempt; simp [retryGo, hop]
  | succ r ih =>
    intro attempt
    have hstep : retryGo op base maxD attempt (r + 1 + 1) =
        { result := (retryGo op base maxD (attempt + 1) (r + 1)).result,
          attempts := (retryGo op base maxD (attempt + 1) (r + 1)).attempts + 1,
          delays := backoff base maxD attempt ::
            (retryGo op base maxD (attempt + 1) (r + 1)).delays } := by
      conv_lhs => rw [retryGo]
      rw [hop attempt]
    rw [hstep, ih (attempt + 1)]
    have hm : attempt + 1 + r = attempt + (r + 1) := by omega
    have hd : backoff base maxD attempt ::
        (List.range r).map (fun k => backoff base maxD (attempt + 1 + k)) =
        (List.range (r + 1)).map (fun k => backoff base maxD (attempt + k)) := by
      rw [List.range_succ_eq_map, List.map_cons, List.map_map]
      simp only [Function.comp, Nat.succ_eq_add_one, Nat.add_zero]
      congr 1
      refine List.map_congr_left fun k _ => ?_
      simp only [Function.comp_apply, Nat.succ_eq_add_one]
      congr 1
      omega
    rw [hm, hd]

/-- A success on the current attempt returns at once: one attempt, no
delay. -/
theorem retryGo_ok {α : Type} (op : Nat → Except FetchErr α)
    (base maxD attempt r : Nat) (a : α) (hop : op attempt = .ok a) :
    retryGo op base maxD attempt (r + 1) =
      { result := .ok a, attempts := 1, delays := [] } := by
  conv_lhs => rw [retryGo]
  rw [hop]

/-- A permanent error on the current attempt makes the coordinator abort at
once: one attempt, no delay. -/
theorem retryGo_permanent {α : Type} (op : Nat → Except FetchErr α)
    (base maxD attempt r : Nat) (m : String)
    (hop : op attempt = .error (.permanent m)) :
    retryGo op base maxD attempt (r + 1) =
      { result := .error (.permanent m), attempts := 1, delays := [] } := by
  simp [retryGo, hop]

/-- Looking up the key just inserted returns the inserted value. -/
theorem dictLookup_insert_self (m : List (String × Df)) (k : String) (v : Df) :
    dictLookup (dictInsert m k v) k = some v := by
  induction m with
  | nil => simp [dictInsert, dictLookup]
  | cons p rest ih =>
    obtain ⟨k1, v1⟩ := p
    by_cases h1 : k1 = k
    · simp [dictInsert, dictLookup, h1]
    · simp [dictInsert, dictLookup, h1, ih]

/-- Inserting under one key leaves lookups of any other key unchanged. -/
theorem dictLookup_insert_other (m : List (String × Df)) (k : String) (v : Df)
    (k0 : String) (h : k ≠ k0) :
    dictLookup (dictInsert m k v) k0 = dictLookup m k0 := by
  induction m with
  | nil => simp [dictInsert, dictLookup, h]
  | cons p rest ih =>
    obtain ⟨k1, v1⟩ := p
    by_cases h1 : k1 = k
    · subst h1
      simp [dictInsert, dictLookup, h]
    · simp [dictInsert, dictLookup, h1, ih]

/-- Lookup after the per-batch collection loop: a symbol whose download
succeeded with data is present with that data; a symbol whose download
raised, or returned no data, contributes nothing (the accumulator decides). -/
theorem processSyms_lookup (dl : String → SymbolOutcome) (s : String) :
    ∀ (syms : List String) (acc : List (String × Df)),
      dictLookup (processSyms dl syms acc) s =
        (match dl s with
         | .ok (some d, _) => if s ∈ syms then some d else dictLookup acc s
         | .ok (none, _) => dictLookup acc s
         | .error _ => dictLookup acc s) := by
  intro syms
  induction syms with
  | nil =>
    intro acc
    cases hdl : dl s with
    | ok v =>
      obtain ⟨od, st⟩ := v
      cases od <;> simp [processSyms, hdl]
    | error e => simp [processSyms, hdl]
  | cons x xs ih =>
    intro acc
    have hstep : processSyms dl (x :: xs) acc =
        processSyms dl xs
          (match dl x with
           | .ok (some d, _) => dictInsert acc x d
           | .ok (none, _) => acc
           | .error _ => acc) := by
      simp only [processSyms, List.foldl_cons]
    rw [hstep, ih]
    by_cases hxs : x = s
    · subst hxs
      cases hdl : dl x with
      | ok v =>
        obtain ⟨od, st⟩ := v
        cases od with
        | some d => simp [hdl, dictLookup_insert_self]
        | none => simp [hdl]
      | error e => simp [hdl]
    · have hlk : dictLookup
          (match dl x with
           | .ok (some d, _) => dictInsert acc x d
           | .ok (none, _) => acc
           | .error _ => acc) s = dictLookup acc s := by
        cases hdlx : dl x with
        | ok w =>
          obtain ⟨od2, st2⟩ := w
          cases od2 with
          | some d2 => exact dictLookup_insert_other acc x d2 s hxs
          | none => rfl
        | error e => rfl
      rw [hlk]
      cases hdl : dl s with
      | ok v =>
        obtain ⟨od, st⟩ := v
        cases od with
        | some d =>
          have hsx : ¬s = x := fun h => hxs h.symm
          simp [List.mem_cons, hsx]
        | none => rfl
      | error e => rfl

/-- The batch loop accumulates results exactly like a single pass over the
concatenation of the batches. -/
theorem runBatches_eq (dl : String → SymbolOutcome) :
    ∀ (cs : List (List String)) (acc : List (String × Df)),
      runBatches dl cs acc = processSyms dl cs.flatten acc := by
  intro cs
  induction cs with
  | nil => intro acc; rfl
  | cons b rest ih =>
    intro acc
    simp only [runBatches, List.flatten_cons, processSyms, List.foldl_append]
    exact ih _

/-- The batches concatenate back to the symbol list. -/
theorem chunks_join {α : Type} (bs : Nat) (l : List α) :
    (chunks bs l).flatten = l := by
  suffices h : ∀ (n : Nat) (l : List α), l.length = n → (chunks bs l).flatten = l from
    h l.length l rfl
  intro n
  induction n using Nat.strong_induction_on with
  | _ n ih =>
    intro l hl
    cases l with
    | nil => simp [chunks]
    | cons x xs =>
      rw [chunks]
      have hlt : (xs.drop (bs - 1)).length < n := by
        rw [← hl]
        simp only [List.length_drop, List.length_cons]
        omega
      rw [List.flatten_cons, ih _ hlt _ rfl]
      simp [List.take_append_drop]

/-- Every batch is non-empty and no longer than the batch size. -/
theorem chunks_mem_len {α : Type} (bs : Nat) (hbs : 0 < bs) (l : List α) :
    ∀ c ∈ chunks bs l, c ≠ [] ∧ c.length ≤ bs := by
  suffices h : ∀ (n : Nat) (l : List α), l.length = n →
      ∀ c ∈ chunks bs l, c ≠ [] ∧ c.length ≤ bs from h l.length l rfl
  intro n
  induction n using Nat.strong_induction_on with
  | _ n ih =>
    intro l hl
    cases l with
    | nil => simp [chunks]
    | cons x xs =>
      rw [chunks]
      intro c hc
      rcases List.mem_cons.mp hc with rfl | hc
      · refine ⟨by simp, ?_⟩
        simp only [List.length_cons, List.length_take]
        omega
      · have hlt : (xs.drop (bs - 1)).length < n := by
          rw [← hl]
          simp only [List.length_drop, List.length_cons]
          omega
        exact ih _ hlt _ rfl c hc

/-- A batch is empty exactly when there are no symbols left. -/
theorem chunks_eq_nil_iff {α : Type} (bs : Nat) (l : List α) :
    chunks bs l = [] ↔ l = [] := by
  cases l with
  | nil => simp [chunks]
  | cons x xs => simp [chunks]

/-- Every batch except the last has exactly the batch size. -/
theorem chunks_dropLast_len {α : Type} (bs : Nat) (hbs : 0 < bs) (l : List α) :
    ∀ c ∈ (chunks bs l).dropLast, c.length = bs := by
  suffices h : ∀ (n : Nat) (l : List α), l.length = n →
      ∀ c ∈ (chunks bs l).dropLast, c.length = bs from h l.length l rfl
  intro n
  induction n using Nat.strong_induction_on with
  | _ n ih =>
    intro l hl
    cases l with
    | nil => simp [chunks]
    | cons x xs =>
      rw [chunks]
      cases hrest : chunks bs (xs.drop (bs - 1)) with
      | nil => simp
      | cons y ys =>
        have hne : xs.drop (bs - 1) ≠ [] := by
          intro h0
          rw [h0] at hrest
          simp [chunks] at hrest
        have hxslen : bs - 1 < xs.length := by
          by_contra hcon
          exact hne (List.drop_eq_nil_of_le (by omega))
        intro c hc
        rw [List.dropLast_cons₂] at hc
        rcases List.mem_cons.mp hc with rfl | hc
        · simp only [List.length_cons, List.length_take]
          omega
        · have hlt : (xs.drop (bs - 1)).length < n := by
            rw [← hl]
            simp only [List.length_drop, List.length_cons]
            omega
          have := ih _ hlt _ rfl
          rw [hrest] at this
          exact this c hc

/-- Splitting the batch list anywhere before its end splits the trace into
the pause-terminated blocks of the earlier batches followed by the trace of
the later ones. -/
theorem traceOf_append (pre post : List (List String)) (hpost : post ≠ []) :
    traceOf (pre ++ post) = ((pre.map blockP).flatten) ++ traceOf post := by
  induction pre with
  | nil => simp
  | cons b pre ih =>
    have hne : pre ++ post ≠ [] := by
      intro h
      exact hpost (List.append_eq_nil.mp h).2
    simp only [List.cons_append, traceOf, List.append_eq]
    rw [if_neg hne, ih]
    simp [blockP, List.append_assoc]

/-- Every start event in the blocks of a batch list names a symbol of one of
those batches. -/
theorem start_mem_blocks (s : String) :
    ∀ l : List (List String),
      BatchEvent.start s ∈ (l.map blockP).flatten → s ∈ l.flatten := by
  intro l
  induction l with
  | nil => simp
  | cons b rest ih =>
    intro h
    simp only [List.map_cons, List.flatten_cons, List.mem_append] at h
    rcases h with h | h
    · simp only [blockP, List.mem_append, List.mem_map, List.mem_singleton] at h
      rcases h with (⟨y, hy, hys⟩ | ⟨y, hy, hys⟩) | h
      · cases hys
        simp [List.flatten_cons, hy]
      · cases hys
      · cases h
    · have := ih h
      simp [List.flatten_cons, this]

/-- Exactly one pause separates consecutive batches. -/
theorem traceOf_count_pause :
    ∀ cs : List (List String),
      (traceOf cs).count (BatchEvent.pause 1) = cs.length - 1 := by
  intro cs
  induction cs with
  | nil => simp [traceOf]
  | cons b rest ih =>
    have h0 : (b.map BatchEvent.start).count (BatchEvent.pause 1) = 0 := by
      refine List.count_eq_zero.mpr ?_
      simp
    have h1 : (b.map BatchEvent.finish).count (BatchEvent.pause 1) = 0 := by
      refine List.count_eq_zero.mpr ?_
      simp
    cases rest with
    | nil => simp [traceOf, List.count_append, h0, h1]
    | cons y ys =>
      have hcons : traceOf (b :: y :: ys) =
          b.map BatchEvent.start ++ (b.map BatchEvent.finish ++
            ([BatchEvent.pause 1] ++ traceOf (y :: ys))) := by
        conv_lhs => rw [traceOf]
        rw [if_neg (by simp : ¬(y :: ys) = [])]
        simp [List.append_assoc]
      rw [hcons, List.count_append, List.count_append, List.count_append, h0, h1, ih]
      simp
      omega

/-- Every pause in the trace is the 1-second inter-batch pause. -/
theorem traceOf_pause_mem :
    ∀ (cs : List (List String)) (t : Nat),
      BatchEvent.pause t ∈ traceOf cs → t = 1 := by
  intro cs
  induction cs with
  | nil => simp [traceOf]
  | cons b rest ih =>
    intro t h
    simp only [traceOf, List.mem_append] at h
    rcases h with ((h | h) | h) | h
    · simp at h
    · simp at h
    · by_cases hr : rest = []
      · rw [if_pos hr] at h
        simp at h
      · rw [if_neg hr] at h
        simp at h
        omega
    · exact ih t h

/-- C1 (counterexample): a call to `async_download_ohlcv` served from a
fresh cache entry re-validates the cached dataset; when that validation has
`passed = false` the call still returns the dataset (not `None`) with the
validation stats, and the monitored operation is never completed with
`success = false` (it is not completed at all), contradicting the claim as
stated for such calls (downloader.py lines 151-157). -/
theorem cacheHit_failedValidation_serves_data_cex :
    (envCacheBad.validate sampleRows).passed = false ∧
    (async_download_ohlcv_body envCacheBad "BTC/USDT" "binance" "1d" none 100 true
        true).outcome = .ok (some sampleRows, [("total_rows", 1)]) ∧
    (async_download_ohlcv_body envCacheBad "BTC/USDT" "binance" "1d" none 100 true
        true).completed ≠ some false := by
  decide

/-- C1 (amended): for every call to `async_download_ohlcv` that is not
served from the cache (`use_cache` false or a cache miss), when the
validator's result has `passed = false`, no data is persisted to CSV or
SQLite, no cache entry is written, the call returns `(None, stats)`, and
the monitored operation is completed with `success = false`
(downloader.py lines 194-212). -/
theorem freshFetch_failedValidation_not_persisted (env : OhlcvEnv)
    (sym ex tf : String) (since : Option Int) (limit : Nat) (csvOk sqlOk : Bool)
    (rows : Df)
    (hmiss : (if env.useCache then env.cacheGet ex sym tf else none) = none)
    (hex : env.exchangeKnown = true)
    (hfetch : env.fetch (effSince since env.now_ms tf limit) limit = .ok rows)
    (hne : rows.isEmpty = false)
    (hval : (env.validate rows).passed = false) :
    async_download_ohlcv_body env sym ex tf since limit csvOk sqlOk =
      { outcome := .ok (none, (env.validate rows).stats), fetchCalls := 1, saved := false,
        csvWritten := false, sqlWritten := false, cacheWrite := none,
        completed := some false } := by
  simp [async_download_ohlcv_body, hmiss, hex, hfetch, hne, hval]

/-- C1 (witness): the amended theorem evaluated on a concrete cache-missing
call whose fetched data fails validation. -/
theorem freshFetch_failedValidation_not_persisted_witness :
    ((if envFreshBad.useCache then envFreshBad.cacheGet "binance" "BTC/USDT" "1d"
      else none) = none) ∧
    envFreshBad.exchangeKnown = true ∧
    envFreshBad.fetch (effSince none envFreshBad.now_ms "1d" 100) 100 = .ok sampleRows ∧
    sampleRows.isEmpty = false ∧
    (envFreshBad.validate sampleRows).passed = false ∧
    async_download_ohlcv_body envFreshBad "BTC/USDT" "binance" "1d" none 100 true true =
      { outcome := .ok (none, (envFreshBad.validate sampleRows).stats), fetchCalls := 1,
        saved := false, csvWritten := false, sqlWritten := false, cacheWrite := none,
        completed := some false } :=
  ⟨rfl, rfl, rfl, rfl, rfl,
   freshFetch_failedValidation_not_persisted envFreshBad "BTC/USDT" "binance" "1d" none 100
     true true sampleRows rfl rfl rfl rfl rfl⟩

/-- C5: when `use_cache` is set and the cache holds a fresh entry for
(exchange, symbol, timeframe), the decorated `async_download_ohlcv` returns
the cached dataset on its first and only attempt: the exchange fetch is
never invoked, no retry is made and no backoff delay is waited
(downloader.py lines 151-157; retry wrapper modelled from the spec). -/
theorem cache_hit_no_fetch_no_retry (env : OhlcvEnv) (sym ex tf : String)
    (since : Option Int) (limit : Nat) (csvOk sqlOk : Bool) (rcfg : RetryCfg) (d : Df)
    (hc : env.useCache = true) (hhit : env.cacheGet ex sym tf = some d)
    (hR : 0 < rcfg.max_retries) :
    async_download_ohlcv env sym ex tf since limit csvOk sqlOk rcfg =
      { result := .ok (some d, (env.validate d).stats), attempts := 1, fetchCalls := 0,
        delays := [] } := by
  obtain ⟨r, hr⟩ : ∃ r, rcfg.max_retries = r + 1 := ⟨rcfg.max_retries - 1, by omega⟩
  have hbody : async_download_ohlcv_body env sym ex tf since limit csvOk sqlOk =
      { outcome := .ok (some d, (env.validate d).stats), fetchCalls := 0, saved := false,
        csvWritten := false, sqlWritten := false, cacheWrite := none,
        completed := none } := by
    simp [async_download_ohlcv_body, hc, hhit]
  simp only [async_download_ohlcv, hbody, hr]
  rw [retryGo_ok (fun _ => Except.ok (some d, (env.validate d).stats)) rcfg.base_delay
    rcfg.max_delay 1 r (some d, (env.validate d).stats) rfl]
  simp

/-- C5 (witness): the theorem evaluated on a concrete fresh cache hit with
the default retry configuration. -/
theorem cache_hit_no_fetch_no_retry_witness :
    (envCacheFresh.useCache = true ∧
     envCacheFresh.cacheGet "binance" "BTC/USDT" "1d" = some sampleRows ∧
     0 < (⟨3, 5, 60⟩ : RetryCfg).max_retries) ∧
    async_download_ohlcv envCacheFresh "BTC/USDT" "binance" "1d" none 100 true true
        ⟨3, 5, 60⟩ =
      { result := .ok (some sampleRows, (envCacheFresh.validate sampleRows).stats),
        attempts := 1, fetchCalls := 0, delays := [] } :=
  ⟨⟨rfl, rfl, by decide⟩,
   cache_hit_no_fetch_no_retry envCacheFresh "BTC/USDT" "binance" "1d" none 100 true true
     ⟨3, 5, 60⟩ sampleRows rfl rfl (by decide)⟩

/-- C6: cache identity is exactly (exchange, symbol, timeframe): two body
executions that differ only in `since`, `limit` (and the storage outcome
Booleans) are served the identical cached dataset whenever a fresh entry
exists for the triple, and every cache write a body execution can perform
is keyed by the triple alone (downloader.py lines 152-153 and 205-206). -/
theorem cache_identity_ignores_since_limit (env : OhlcvEnv) (sym ex tf : String) (d : Df)
    (hc : env.useCache = true) (hhit : env.cacheGet ex sym tf = some d)
    (s1 s2 : Option Int) (l1 l2 : Nat) (c1 q1 c2 q2 : Bool) :
    (async_download_ohlcv_body env sym ex tf s1 l1 c1 q1 =
       async_download_ohlcv_body env sym ex tf s2 l2 c2 q2) ∧
    ((async_download_ohlcv_body env sym ex tf s1 l1 c1 q1).outcome =
       .ok (some d, (env.validate d).stats)) ∧
    (∀ (env' : OhlcvEnv) (s : Option Int) (l : Nat) (c q : Bool),
       (async_download_ohlcv_body env' sym ex tf s l c q).cacheWrite = none ∨
       (async_download_ohlcv_body env' sym ex tf s l c q).cacheWrite =
         some (ex, sym, tf)) := by
  refine ⟨?_, ?_, ?_⟩
  · simp [async_download_ohlcv_body, hc, hhit]
  · simp [async_download_ohlcv_body, hc, hhit]
  · intro env' s l c q
    cases hcg : (if env'.useCache then env'.cacheGet ex sym tf else none) with
    | some d2 => simp [async_download_ohlcv_body, hcg]
    | none =>
      cases hek : env'.exchangeKnown with
      | false => simp [async_download_ohlcv_body, hcg, hek]
      | true =>
        cases hf : env'.fetch (effSince s env'.now_ms tf l) l with
        | error e => simp [async_download_ohlcv_body, hcg, hek, hf]
        | ok rows =>
          cases hre : rows.isEmpty with
          | false =>
            cases hvp : (env'.validate rows).passed with
            | false => simp [async_download_ohlcv_body, hcg, hek, hf, hre, hvp]
            | true =>
              cases huc : env'.useCache with
              | false => simp [async_download_ohlcv_body, hcg, hek, hf, hre, hvp, huc]
              | true =>
                have hcg2 : env'.cacheGet ex sym tf = none := by
                  rw [huc] at hcg
                  simpa using hcg
                simp [async_download_ohlcv_body, huc, hcg2, hek, hf, hre, hvp]
          | true => simp [async_download_ohlcv_body, hcg, hek, hf, hre]

/-- C6 (witness): the theorem evaluated on a concrete fresh cache entry with
two different (since, limit) request windows. -/
theorem cache_identity_ignores_since_limit_witness :
    (envCacheFresh.useCache = true ∧
     envCacheFresh.cacheGet "binance" "BTC/USDT" "1d" = some sampleRows) ∧
    ((async_download_ohlcv_body envCacheFresh "BTC/USDT" "binance" "1d"
        (some 1600000000000) 100 true true =
      async_download_ohlcv_body envCacheFresh "BTC/USDT" "binance" "1d"
        (some 1700000000000) 500 false false) ∧
     ((async_download_ohlcv_body envCacheFresh "BTC/USDT" "binance" "1d"
        (some 1600000000000) 100 true true).outcome =
       .ok (some sampleRows, (envCacheFresh.validate sampleRows).stats)) ∧
     (∀ (env' : OhlcvEnv) (s : Option Int) (l : Nat) (c q : Bool),
       (async_download_ohlcv_body env' "BTC/USDT" "binance" "1d" s l c q).cacheWrite =
         none ∨
       (async_download_ohlcv_body env' "BTC/USDT" "binance" "1d" s l c q).cacheWrite =
         some ("binance", "BTC/USDT", "1d"))) :=
  ⟨⟨rfl, rfl⟩,
   cache_identity_ignores_since_limit envCacheFresh "BTC/USDT" "binance" "1d" sampleRows
     rfl rfl (some 1600000000000) (some 1700000000000) 100 500 true true false false⟩

/-- C7: when the fetch succeeds and validation passes, the body returns the
fetched dataset with `success = true` no matter whether the CSV and SQLite
writes succeed: a storage write failure is swallowed by `_save_data`
(downloader.py lines 280-281), never raises out of the download, and never
turns the successful fetch into an absent result (lines 200-209). -/
theorem storage_failure_still_returns_data (env : OhlcvEnv) (sym ex tf : String)
    (since : Option Int) (limit : Nat) (rows : Df)
    (hmiss : (if env.useCache then env.cacheGet ex sym tf else none) = none)
    (hex : env.exchangeKnown = true)
    (hfetch : env.fetch (effSince since env.now_ms tf limit) limit = .ok rows)
    (hne : rows.isEmpty = false)
    (hval : (env.validate rows).passed = true) :
    ∀ csvOk sqlOk : Bool,
      (async_download_ohlcv_body env sym ex tf since limit csvOk sqlOk).outcome =
        .ok (some rows, (env.validate rows).stats) ∧
      (async_download_ohlcv_body env sym ex tf since limit csvOk sqlOk).completed =
        some true ∧
      (async_download_ohlcv_body env sym ex tf since limit csvOk sqlOk).csvWritten =
        csvOk ∧
      (async_download_ohlcv_body env sym ex tf since limit csvOk sqlOk).sqlWritten =
        sqlOk := by
  intro csvOk sqlOk
  refine ⟨?_, ?_, ?_, ?_⟩ <;>
    simp [async_download_ohlcv_body, hmiss, hex, hfetch, hne, hval, save_data]

/-- C7 (witness): the theorem evaluated on a concrete validated fetch with
both storage writes failing. -/
theorem storage_failure_still_returns_data_witness :
    ((if envFreshOk.useCache then envFreshOk.cacheGet "binance" "BTC/USDT" "1d"
      else none) = none) ∧
    envFreshOk.exchangeKnown = true ∧
    envFreshOk.fetch (effSince none envFreshOk.now_ms "1d" 100) 100 = .ok sampleRows ∧
    sampleRows.isEmpty = false ∧
    (envFreshOk.validate sampleRows).passed = true ∧
    ((async_download_ohlcv_body envFreshOk "BTC/USDT" "binance" "1d" none 100 false
        false).outcome = .ok (some sampleRows, (envFreshOk.validate sampleRows).stats) ∧
     (async_download_ohlcv_body envFreshOk "BTC/USDT" "binance" "1d" none 100 false
        false).completed = some true ∧
     (async_download_ohlcv_body envFreshOk "BTC/USDT" "binance" "1d" none 100 false
        false).csvWritten = false ∧
     (async_download_ohlcv_body envFreshOk "BTC/USDT" "binance" "1d" none 100 false
        false).sqlWritten = false) :=
  ⟨rfl, rfl, rfl, rfl, rfl,
   storage_failure_still_returns_data envFreshOk "BTC/USDT" "binance" "1d" none 100
     sampleRows rfl rfl rfl rfl rfl false false⟩

/-- C10: a call served from a fresh cache entry returns the cached dataset
together with its re-validation stats even when that re-validation did not
pass — nothing is persisted, no cache entry is rewritten, and the monitored
operation is never completed (downloader.py lines 151-157). -/
theorem cache_hit_served_despite_failed_validation (env : OhlcvEnv) (sym ex tf : String)
    (since : Option Int) (limit : Nat) (csvOk sqlOk : Bool) (d : Df)
    (hc : env.useCache = true) (hhit : env.cacheGet ex sym tf = some d)
    (hval : (env.validate d).passed = false) :
    async_download_ohlcv_body env sym ex tf since limit csvOk sqlOk =
      { outcome := .ok (some d, (env.validate d).stats), fetchCalls := 0, saved := false,
        csvWritten := false, sqlWritten := false, cacheWrite := none,
        completed := none } := by
  simp [async_download_ohlcv_body, hc, hhit]

/-- C10 (witness): the theorem evaluated on a concrete cache hit whose
re-validation fails. -/
theorem cache_hit_served_despite_failed_validation_witness :
    (envCacheBad.useCache = true ∧
     envCacheBad.cacheGet "binance" "BTC/USDT" "1d" = some sampleRows ∧
     (envCacheBad.validate sampleRows).passed = false) ∧
    async_download_ohlcv_body envCacheBad "BTC/USDT" "binance" "1d" none 100 true true =
      { outcome := .ok (some sampleRows, (envCacheBad.validate sampleRows).stats),
        fetchCalls := 0, saved := false, csvWritten := false, sqlWritten := false,
        cacheWrite := none, completed := none } :=
  ⟨⟨rfl, rfl, rfl⟩,
   cache_hit_served_despite_failed_validation envCacheBad "BTC/USDT" "binance" "1d" none
     100 true true sampleRows rfl rfl rfl⟩

/-- C2 (counterexample): `async_download_trades` with a gateway that raises
a transient error on every attempt does invoke the gateway exactly
`max_retries` (3) times, but it then returns `None` normally — it does not
fail with a `RetriesExhaustedError` or any other exception (downloader.py
lines 235-239). -/
theorem trades_exhausted_returns_none_cex :
    (async_download_trades envTradesTransient).fetchCalls = 3 ∧
    (async_download_trades envTradesTransient).result = .ok none ∧
    (async_download_trades envTradesTransient).result ≠
      .error (.retriesExhausted (.transient "Network Error")) := by
  decide

/-- C2 (amended): a gateway that raises a transient error on every attempt
is invoked exactly `max_retries` times; `async_download_trades` then fails
by returning an absent result (`None`) without raising, while the
spec-modelled retry coordinator (used by `async_download_ohlcv` through
`with_retry`) fails with `RetriesExhaustedError` wrapping the last
underlying error. -/
theorem transient_every_attempt_retry_bound {α : Type} (env : TradesEnv)
    (op : Nat → Except FetchErr α) (m : Nat → String) (base maxD R : Nat)
    (hex : env.exchangeKnown = true)
    (hf : ∀ n, ∃ e, env.fetch n = .error e)
    (hR : env.maxRetries = R)
    (hop : ∀ n, op n = .error (.transient (m n))) (hR1 : 0 < R) :
    ((async_download_trades env).fetchCalls = R ∧
     (async_download_trades env).attempts = R ∧
     (async_download_trades env).result = .ok none) ∧
    ((retryExec op R base maxD).attempts = R ∧
     (retryExec op R base maxD).result =
       .error (.retriesExhausted (.transient (m R)))) := by
  obtain ⟨r, rfl⟩ : ∃ r, R = r + 1 := ⟨R - 1, by omega⟩
  constructor
  · rw [show async_download_trades env = tradesGo env 1 env.maxRetries from rfl,
      tradesGo_allFail env hex hf env.maxRetries 1, hR]
    exact ⟨rfl, rfl, rfl⟩
  · rw [show retryExec op (r + 1) base maxD = retryGo op base maxD 1 (r + 1) from rfl,
      retryGo_transient op m base maxD hop r 1]
    refine ⟨rfl, ?_⟩
    rw [show 1 + r = r + 1 from by omega]

/-- C2 (witness): the amended theorem evaluated on the concrete
always-transient gateway with the default configuration. -/
theorem transient_every_attempt_retry_bound_witness :
    (envTradesTransient.exchangeKnown = true ∧ envTradesTransient.maxRetries = 3 ∧
     0 < (3 : Nat)) ∧
    (((async_download_trades envTradesTransient).fetchCalls = 3 ∧
      (async_download_trades envTradesTransient).attempts = 3 ∧
      (async_download_trades envTradesTransient).result = .ok none) ∧
     ((retryExec opTransient 3 5 60).attempts = 3 ∧
      (retryExec opTransient 3 5 60).result =
        .error (.retriesExhausted (.transient "Network Error")))) :=
  ⟨⟨rfl, rfl, by decide⟩,
   transient_every_attempt_retry_bound envTradesTransient opTransient
     (fun _ => "Network Error") 5 60 3 rfl
     (fun _ => ⟨.transient "Network Error", rfl⟩) rfl (fun _ => rfl) (by decide)⟩

/-- C3 (counterexample): `async_download_trades` with an unknown exchange
name (a permanent failure: `_get_exchange` raises `ValueError`) attempts
the operation on every one of the `max_retries` (3) loop iterations, not
exactly once — the bare `except Exception` at downloader.py line 235
catches and retries permanent errors too. -/
theorem trades_unknownExchange_retried_cex :
    (async_download_trades envTradesNoExchange).attempts = 3 ∧
    (async_download_trades envTradesNoExchange).attempts ≠ 1 ∧
    (async_download_trades envTradesNoExchange).fetchCalls = 0 ∧
    (async_download_trades envTradesNoExchange).result = .ok none := by
  decide

/-- C3 (amended): under the spec-modelled retry coordinator (used by
`async_download_ohlcv` through `with_retry`) a permanent error causes
exactly one attempt with no backoff, aborting immediately; the inline loop
of `async_download_trades`, however, catches every exception, so a
permanently failing operation (such as an unknown exchange name) is
attempted on all `max_retries` iterations before `None` is returned. -/
theorem permanent_error_single_attempt {α : Type} (op : Nat → Except FetchErr α)
    (base maxD R : Nat) (m : String) (env : TradesEnv)
    (hop : op 1 = .error (.permanent m)) (hR : 0 < R)
    (hex : env.exchangeKnown = false) :
    ((retryExec op R base maxD).attempts = 1 ∧
     (retryExec op R base maxD).result = .error (.permanent m) ∧
     (retryExec op R base maxD).delays = []) ∧
    ((async_download_trades env).attempts = env.maxRetries ∧
     (async_download_trades env).fetchCalls = 0 ∧
     (async_download_trades env).result = .ok none) := by
  obtain ⟨r, rfl⟩ : ∃ r, R = r + 1 := ⟨R - 1, by omega⟩
  constructor
  · rw [show retryExec op (r + 1) base maxD = retryGo op base maxD 1 (r + 1) from rfl,
      retryGo_permanent op base maxD 1 r m hop]
    exact ⟨rfl, rfl, rfl⟩
  · rw [show async_download_trades env = tradesGo env 1 env.maxRetries from rfl,
      tradesGo_noExchange env hex env.maxRetries 1]
    exact ⟨rfl, rfl, rfl⟩

/-- C3 (witness): the amended theorem evaluated on the concrete permanently
failing operation and the unknown-exchange trades environment. -/
theorem permanent_error_single_attempt_witness :
    (opPermanent 1 = .error (.permanent "Exchange binance not initialized.") ∧
     0 < (3 : Nat) ∧ envTradesNoExchange.exchangeKnown = false) ∧
    (((retryExec opPermanent 3 5 60).attempts = 1 ∧
      (retryExec opPermanent 3 5 60).result =
        .error (.permanent "Exchange binance not initialized.") ∧
      (retryExec opPermanent 3 5 60).delays = []) ∧
     ((async_download_trades envTradesNoExchange).attempts =
        envTradesNoExchange.maxRetries ∧
      (async_download_trades envTradesNoExchange).fetchCalls = 0 ∧
      (async_download_trades envTradesNoExchange).result = .ok none)) :=
  ⟨⟨rfl, by decide, rfl⟩,
   permanent_error_single_attempt opPermanent 5 60 3
     "Exchange binance not initialized." envTradesNoExchange rfl (by decide) rfl⟩

/-- C4: per-symbol failure isolation of `download_multiple_symbols`
(downloader.py lines 120-129): the returned mapping holds exactly the
symbols whose download returned a present dataset, with that dataset;
a symbol whose download raised, or returned `None`, contributes no entry;
raised per-symbol exceptions are caught inside the loop, so the function
always returns its mapping (its result type carries no exception). -/
theorem download_many_isolation (dl : String → SymbolOutcome)
    (symbols : List String) (bs : Nat) (s : String) :
    dictLookup (download_multiple_symbols dl symbols bs).1 s =
      (if s ∈ symbols then
        match dl s with
        | .ok (some d, _) => some d
        | .ok (none, _) => none
        | .error _ => none
       else none) := by
  show dictLookup (runBatches dl (chunks bs symbols) []) s = _
  rw [runBatches_eq dl (chunks bs symbols) [], chunks_join bs symbols,
    processSyms_lookup dl s symbols []]
  cases hdl : dl s with
  | ok v =>
    obtain ⟨od, st⟩ := v
    cases od with
    | some d => by_cases hmem : s ∈ symbols <;> simp [dictLookup, hmem]
    | none => by_cases hmem : s ∈ symbols <;> simp [dictLookup, hmem]
  | error e => by_cases hmem : s ∈ symbols <;> simp [dictLookup, hmem]

/-- C4 (witness): with symbol A failing permanently and symbol B
succeeding, the mapping holds exactly B with its data. -/
theorem download_many_isolation_witness :
    dictLookup (download_multiple_symbols dlMixed ["A", "B"] 5).1 "B" = some sampleRows ∧
    dictLookup (download_multiple_symbols dlMixed ["A", "B"] 5).1 "A" = none := by
  have hB := download_many_isolation dlMixed ["A", "B"] 5 "B"
  have hA := download_many_isolation dlMixed ["A", "B"] 5 "A"
  refine ⟨hB.trans (by decide), hA.trans (by decide)⟩

/-- C8: the batching discipline of `download_multiple_symbols`
(downloader.py lines 103-133): the symbol list is partitioned into
consecutive groups of `batch_size` (all full except possibly the last);
in the trace, every task of a group starts only after every task of the
previous group has completed; and a 1-second pause follows each group
except the last (one pause per consecutive pair of groups, every pause of
length 1). -/
theorem batching_groups_order_pause (dl : String → SymbolOutcome)
    (symbols : List String) (bs : Nat) (hbs : 0 < bs) :
    ((chunks bs symbols).flatten = symbols) ∧
    (∀ c ∈ (chunks bs symbols).dropLast, c.length = bs) ∧
    (∀ c ∈ chunks bs symbols, c ≠ [] ∧ c.length ≤ bs) ∧
    (∀ pre c1 c2 post, chunks bs symbols = pre ++ c1 :: c2 :: post →
      ∃ A B, (download_multiple_symbols dl symbols bs).2 = A ++ B ∧
        (∀ s ∈ c1, BatchEvent.finish s ∈ A) ∧
        (∀ s ∈ c2, BatchEvent.start s ∈ B) ∧
        (symbols.Nodup → ∀ s ∈ c2, BatchEvent.start s ∉ A)) ∧
    ((download_multiple_symbols dl symbols bs).2.count (BatchEvent.pause 1) =
      (chunks bs symbols).length - 1) ∧
    (∀ t, BatchEvent.pause t ∈ (download_multiple_symbols dl symbols bs).2 → t = 1) := by
  refine ⟨chunks_join bs symbols, chunks_dropLast_len bs hbs symbols,
    chunks_mem_len bs hbs symbols, ?_, traceOf_count_pause (chunks bs symbols),
    fun t => traceOf_pause_mem (chunks bs symbols) t⟩
  intro pre c1 c2 post hsplit
  refine ⟨((pre ++ [c1]).map blockP).flatten, traceOf (c2 :: post), ?_, ?_, ?_, ?_⟩
  · show traceOf (chunks bs symbols) = _
    rw [hsplit, show pre ++ c1 :: c2 :: post = (pre ++ [c1]) ++ (c2 :: post) from by simp]
    exact traceOf_append (pre ++ [c1]) (c2 :: post) (by simp)
  · intro s hs
    refine List.mem_flatten.mpr ⟨blockP c1, List.mem_map_of_mem _ (by simp), ?_⟩
    simp [blockP, hs]
  · intro s hs
    show BatchEvent.start s ∈ traceOf (c2 :: post)
    have hunf : traceOf (c2 :: post) =
        c2.map BatchEvent.start ++ c2.map BatchEvent.finish ++
          (if post = [] then [] else [BatchEvent.pause 1]) ++ traceOf post := by
      conv_lhs => rw [traceOf]
    rw [hunf]
    exact List.mem_append_left _ (List.mem_append_left _
      (List.mem_append_left _ (List.mem_map_of_mem _ hs)))
  · intro hnodup s hs hmem
    have hsj : s ∈ (pre ++ [c1]).flatten := start_mem_blocks s (pre ++ [c1]) hmem
    have hsym : symbols = (pre ++ [c1]).flatten ++ (c2 :: post).flatten := by
      conv_lhs => rw [← chunks_join bs symbols, hsplit]
      rw [show pre ++ c1 :: c2 :: post = (pre ++ [c1]) ++ (c2 :: post) from by simp]
      rw [List.flatten_append]
    rw [hsym] at hnodup
    rcases List.nodup_append.mp hnodup with ⟨-, -, hdisj⟩
    exact hdisj hsj (List.mem_flatten.mpr ⟨c2, by simp, hs⟩)

/-- C8 (witness): the theorem evaluated on three symbols in batches of
two. -/
theorem batching_groups_order_pause_witness :
    0 < 2 ∧
    (((chunks 2 ["A", "B", "C"]).flatten = ["A", "B", "C"]) ∧
     (∀ c ∈ (chunks 2 ["A", "B", "C"]).dropLast, c.length = 2) ∧
     (∀ c ∈ chunks 2 ["A", "B", "C"], c ≠ [] ∧ c.length ≤ 2) ∧
     (∀ pre c1 c2 post, chunks 2 ["A", "B", "C"] = pre ++ c1 :: c2 :: post →
       ∃ A B, (download_multiple_symbols dlMixed ["A", "B", "C"] 2).2 = A ++ B ∧
         (∀ s ∈ c1, BatchEvent.finish s ∈ A) ∧
         (∀ s ∈ c2, BatchEvent.start s ∈ B) ∧
         ((["A", "B", "C"] : List String).Nodup → ∀ s ∈ c2, BatchEvent.start s ∉ A)) ∧
     ((download_multiple_symbols dlMixed ["A", "B", "C"] 2).2.count (BatchEvent.pause 1) =
       (chunks 2 ["A", "B", "C"]).length - 1) ∧
     (∀ t, BatchEvent.pause t ∈ (download_multiple_symbols dlMixed ["A", "B", "C"] 2).2 →
       t = 1)) :=
  ⟨by decide, batching_groups_order_pause dlMixed ["A", "B", "C"] 2 (by decide)⟩

/-- C9 (counterexample): in `async_download_trades` the delay waited after
the second failed attempt (before attempt 3) is the constant
`retry_delay = 5`, not the claimed `min(base_delay * 2 ^ (attempt - 1),
max_delay) = min(5 * 2, 60) = 10` (downloader.py line 237 sleeps a
constant). -/
theorem trades_constant_delay_cex :
    (async_download_trades envTradesDelays).delays = [5, 5, 5] ∧
    backoff 5 60 2 = 10 ∧
    (async_download_trades envTradesDelays).delays.get? 1 = some 5 ∧
    (5 : Nat) ≠ 10 := by
  decide

/-- C9 (amended): the retry manager is constructed with
`base_delay = config.retry_delay` and `max_delay = 60` (downloader.py lines
27-31); an operation retried through the spec-modelled retry coordinator
waits `min(base_delay * 2 ^ (attempt - 1), max_delay)` after the failure of
attempt number `attempt` (its k-th recorded delay, waited before attempt
k + 2, is `min(base * 2 ^ k, maxD)`); `async_download_trades`, however,
waits the constant `retry_delay` after every failed attempt. -/
theorem backoff_formula_and_trades_delay {α : Type} (cfg : Config)
    (op : Nat → Except FetchErr α) (m : Nat → String) (env : TradesEnv)
    (R base maxD : Nat)
    (hop : ∀ n, op n = .error (.transient (m n))) (hR : 0 < R)
    (hex : env.exchangeKnown = true) (hf : ∀ n, ∃ e, env.fetch n = .error e) :
    (initRetryManager cfg).base_delay = cfg.retry_delay ∧
    (initRetryManager cfg).max_delay = 60 ∧
    (retryExec op R base maxD).delays =
      (List.range (R - 1)).map (fun k => min (base * 2 ^ k) maxD) ∧
    (async_download_trades env).delays = List.replicate env.maxRetries env.retryDelay := by
  obtain ⟨r, rfl⟩ : ∃ r, R = r + 1 := ⟨R - 1, by omega⟩
  refine ⟨rfl, rfl, ?_, ?_⟩
  · rw [show retryExec op (r + 1) base maxD = retryGo op base maxD 1 (r + 1) from rfl,
      retryGo_transient op m base maxD hop r 1]
    show (List.range r).map (fun k => backoff base maxD (1 + k)) =
      (List.range (r + 1 - 1)).map (fun k => min (base * 2 ^ k) maxD)
    rw [show r + 1 - 1 = r from rfl]
    refine List.map_congr_left fun k _ => ?_
    simp only [backoff]
    rw [show 1 + k - 1 = k from by omega]
  · rw [show async_download_trades env = tradesGo env 1 env.maxRetries from rfl,
      tradesGo_allFail env hex hf env.maxRetries 1]

/-- C9 (witness): the amended theorem evaluated on the default
configuration, the concrete always-transient operation and the concrete
always-failing trades environment. -/
theorem backoff_formula_and_trades_delay_witness :
    (0 < (3 : Nat) ∧ envTradesDelays.exchangeKnown = true) ∧
    ((initRetryManager {}).base_delay = ({} : Config).retry_delay ∧
     (initRetryManager {}).max_delay = 60 ∧
     (retryExec opTransient 3 5 60).delays =
       (List.range (3 - 1)).map (fun k => min (5 * 2 ^ k) 60) ∧
     (async_download_trades envTradesDelays).delays =
       List.replicate envTradesDelays.maxRetries envTradesDelays.retryDelay) :=
  ⟨⟨by decide, rfl⟩,
   backoff_formula_and_trades_delay {} opTransient (fun _ => "Network Error")
     envTradesDelays 3 5 60 (fun _ => rfl) (by decide) rfl
     (fun _ => ⟨.transient "rate limit", rfl⟩)⟩

end TraderBot
